import Mathlib

/-!
# Verification of the multi-strategy DOM-interaction resolution engine

This file gives a shallow embedding of the browser-automation core of the
repository: the Select2 in-page selection scripts (step definitions), the
`inspectDetailed` element inspector of the playwright MCP server, and the
helper layer `clickWithRetry` / `selectDateRangeOption` /
`clickRelativeToElement` functions, together with theorems about them.

Conventions of the embedding:
* DOM elements are records carrying exactly the fields the scripts read
  (`offsetParent !== null` as a `Bool`, `getAttribute` results as
  `Option String`, class lists as `List String`, `textContent` as `String`).
* JavaScript numbers that the code compares or rounds are rationals `ℚ`
  (`getBoundingClientRect` returns float pixels); `parseFloat`/`parseInt`
  results that may be `NaN` are `Option` values.
* Fallible provider calls are `Except JsError _`; a thrown JS exception is
  the `.error` case.
-/

namespace AutomateShauqq

/-- JS substring test on character lists: `leadMatch t s` is
`s.startsWith(t)` for the underlying strings. -/
def leadMatch : List Char → List Char → Bool
  | [], _ => true
  | _ :: _, [] => false
  | a :: as, b :: bs => a = b && leadMatch as bs

/-- `listSub t s` decides whether `t` occurs contiguously inside `s`. -/
def listSub (t : List Char) : List Char → Bool
  | [] => t.isEmpty
  | c :: cs => leadMatch t (c :: cs) || listSub t cs

/-- Embedding of JavaScript `s.includes(t)` (substring containment). -/
def strIncludes (s t : String) : Bool := listSub t.data s.data

/-- Embedding of JavaScript `s.trim()`: strip whitespace from both ends
(implemented on the character list so that it evaluates by reduction). -/
def jsTrim (s : String) : String :=
  ⟨((s.data.dropWhile Char.isWhitespace).reverse.dropWhile
      Char.isWhitespace).reverse⟩

/-- Embedding of the JS idiom `x || d` for an optional numeric option field
(`options.maxRetries || 5`): `0` is falsy in JS, so an explicit `0` also
falls back to the default. -/
def jsOrNat (o : Option Nat) (d : Nat) : Nat :=
  match o with
  | some n => if n = 0 then d else n
  | none => d

/-- Embedding of the JS idiom `s || d` for an optional string
(`parsed.message || default`): the empty string is falsy. -/
def jsOrString (o : Option String) (d : String) : String :=
  match o with
  | some s => if s = "" then d else s
  | none => d

/-- JavaScript `Math.round`: round half towards positive infinity,
`Math.round(x) = ⌊x + 0.5⌋`. -/
def jsRound (q : ℚ) : Int := ⌊q + 1/2⌋

/-! ## Option elements and dropdown containers (Select2 in-page scripts) -/

/-- A candidate option element as observed by the selection scripts:
the exact fields the scripts read from the DOM node. -/
structure OptionEl where
  /-- `opt.offsetParent !== null` -/
  offsetParentNonNull : Bool
  /-- `opt.getAttribute('role')` (`none` = attribute absent) -/
  role : Option String
  /-- `opt.getAttribute('aria-disabled')` (`none` = `!opt.hasAttribute`) -/
  ariaDisabled : Option String
  /-- the element's class list (`opt.classList`) -/
  classes : List String
  /-- `opt.textContent` (the scripts always trim it before use) -/
  textContent : String
deriving DecidableEq, Repr

/-- `opt.textContent?.trim()` -/
def OptionEl.textTrim (o : OptionEl) : String := jsTrim o.textContent

/-- The validity filter of the index-selection script
(`I select option {int} from Select2 dropdown labeled {string}`):
visible, role `option`/`treeitem`, not aria-disabled, not a
message/loading element, text non-empty and not one of the reserved
sentinels (`No results found`, `Loading results…`, `Select...`,
`Please select...`, `-- Select --`). -/
def isValidOptionIdx (o : OptionEl) : Bool :=
  o.offsetParentNonNull &&
  (o.role == some "option" || o.role == some "treeitem") &&
  (o.ariaDisabled == none || o.ariaDisabled == some "false") &&
  !(o.classes.contains "select2-results__message") &&
  !(o.classes.contains "loading-results") &&
  (o.textTrim ≠ "" && o.textTrim ≠ "No results found" &&
    o.textTrim ≠ "Loading results…") &&
  (o.textTrim ≠ "Select..." && o.textTrim ≠ "Please select..." &&
    o.textTrim ≠ "-- Select --")

/-- The validity filter of the text-selection script
(`I select {string} from Select2 dropdown labeled {string}`): same shape
but it only excludes the `No results found` sentinel. -/
def isValidOptionTxt (o : OptionEl) : Bool :=
  o.offsetParentNonNull &&
  (o.role == some "option" || o.role == some "treeitem") &&
  (o.ariaDisabled == none || o.ariaDisabled == some "false") &&
  !(o.classes.contains "select2-results__message") &&
  !(o.classes.contains "loading-results") &&
  (o.textTrim ≠ "" && o.textTrim ≠ "No results found")

/-- A candidate dropdown/result container
(`.select2-results, .select2-dropdown`), with the fields the
index-selection script reads. -/
structure Container where
  /-- `container.offsetParent !== null` -/
  visible : Bool
  /-- `parseInt(window.getComputedStyle(container).zIndex)`;
  `none` models `NaN` (e.g. `z-index: auto`) -/
  zIndex : Option Int
  /-- the option elements matched by
  `container.querySelectorAll('.select2-results__option, li[role="option"], li[role="treeitem"]')`,
  in document order -/
  options : List OptionEl
deriving DecidableEq, Repr

/-- Effective z-index used by the script: `parseInt(zIndex) || 0`
(`NaN` is falsy, so it becomes `0`). -/
def Container.effZ (c : Container) : Int := c.zIndex.getD 0

/-- One step of the `containers.forEach` fold of the index-selection
script: a visible container whose effective z-index strictly exceeds the
running maximum replaces the current best. -/
def pickStep (acc : Option Container × Int) (c : Container) :
    Option Container × Int :=
  if c.visible then
    if c.effZ > acc.2 then (some c, c.effZ) else acc
  else acc

/-- The topmost-container disambiguation of the index-selection script:
a `forEach` fold keeping the visible container whose effective z-index
strictly exceeds the running maximum (initially `-1`), then the fallback
`containers.find(visible) || containers[containers.length - 1]` when the
fold found nothing. -/
def pickTopContainer (cs : List Container) : Option Container :=
  let r := cs.foldl pickStep (none, -1)
  match r.1 with
  | some c => some c
  | none =>
    if cs.isEmpty then none
    else
      match cs.find? (fun c => c.visible) with
      | some c => some c
      | none => cs.getLast?

/-- Result of the index-selection script: `success`, the option the mouse
event triplet was dispatched on, and its reported trimmed text. -/
structure IdxSelectResult where
  success : Bool
  clicked : Option OptionEl
  text : Option String
deriving DecidableEq, Repr

/-- The in-page script of
`I select option {int} from Select2 dropdown labeled {string}`: pick the
topmost container, filter its options through `isValidOptionIdx`, convert
the 1-based `optionIndex` to 0-based, and dispatch
`mousedown`/`mouseup`/`click` on `validOptions[targetIndex]` when
`validOptions.length > targetIndex && targetIndex >= 0`, failing
otherwise. -/
def selectByIndexScript (cs : List Container) (optionIndex : Int) :
    IdxSelectResult :=
  match pickTopContainer cs with
  | none => ⟨false, none, none⟩
  | some top =>
    let validOptions := top.options.filter isValidOptionIdx
    let targetIndex := optionIndex - 1
    if targetIndex < (validOptions.length : Int) ∧ 0 ≤ targetIndex then
      match validOptions[targetIndex.toNat]? with
      | some o => ⟨true, some o, some o.textTrim⟩
      | none => ⟨false, none, none⟩
    else ⟨false, none, none⟩

/-- Result of the text-selection script. -/
structure TxtSelectResult where
  success : Bool
  clicked : Option OptionEl
  text : Option String
deriving DecidableEq, Repr

/-- The in-page script of
`I select {string} from Select2 dropdown labeled {string}`: over the
document-wide option list, filter through `isValidOptionTxt`, then try an
exact match on trimmed text, then a substring match
(`textContent.trim().includes(target)`), then fall back to the first
valid option; `click()` the chosen option. -/
def selectByTextScript (allOptions : List OptionEl) (target : String) :
    TxtSelectResult :=
  let validOptions := allOptions.filter isValidOptionTxt
  let chosen :=
    match validOptions.find? (fun o => o.textTrim == target) with
    | some o => some o
    | none =>
      match validOptions.find? (fun o => strIncludes o.textTrim target) with
      | some o => some o
      | none => validOptions.head?
  match chosen with
  | some o => ⟨true, some o, some o.textTrim⟩
  | none => ⟨false, none, none⟩

/-! ## Element State Inspector (`inspectDetailed`, playwright MCP server) -/

/-- The facts about a DOM element that the `inspectDetailed` page function
reads: `offsetParent`, the computed-style strings it compares, the parsed
opacity (`parseFloat`, `none` = `NaN`), and the bounding client rect. -/
structure InspectedEl where
  /-- `el.offsetParent !== null` -/
  offsetParentNonNull : Bool
  /-- `computedStyle.display` -/
  display : String
  /-- `computedStyle.visibility` -/
  visibility : String
  /-- `parseFloat(computedStyle.opacity)`; `none` models `NaN` -/
  opacity : Option ℚ
  /-- `getBoundingClientRect()` x / y / width / height (float pixels) -/
  rectX : ℚ
  rectY : ℚ
  rectWidth : ℚ
  rectHeight : ℚ
deriving DecidableEq, Repr

/-- Bounding-box area of the inspected element. -/
def InspectedEl.area (e : InspectedEl) : ℚ := e.rectWidth * e.rectHeight

/-- The `isVisible` flag computed by `inspectDetailed`:
`el.offsetParent !== null && display !== 'none' && visibility !== 'hidden'
&& parseFloat(opacity) > 0` (a `NaN` opacity compares false). -/
def inspectIsVisible (e : InspectedEl) : Bool :=
  e.offsetParentNonNull &&
  e.display ≠ "none" &&
  e.visibility ≠ "hidden" &&
  (match e.opacity with
   | some v => decide (0 < v)
   | none => false)

/-! ## Strategy-ordered click resolver (`clickWithRetry`) -/

/-- Outcome of one strategy attempt: the strategy's `{success, message}`
result, or a thrown exception (which the resolver's `catch` swallows). -/
inductive Outcome where
  | ok (msg : String)
  | fail (msg : String)
  | thrown
deriving DecidableEq, Repr

/-- Whether an attempt outcome is a self-reported success. -/
def Outcome.isOk : Outcome → Bool
  | .ok _ => true
  | _ => false

/-- The browser's response to each attempt, indexed by outer round and
strategy position: the resolver re-runs every strategy each round, and an
asynchronously re-rendering page may answer differently per round. -/
def Env : Type := Nat → Nat → Outcome

/-- The fixed strategy list of `clickWithRetry`, in source order. -/
def strategyNames : List String :=
  ["standard-click", "force-click", "hover-then-click", "js-click",
   "dispatch-mouse-events"]

/-- Observable interaction events of a resolution run: a strategy attempt
(round, strategy position) or a `setTimeout` wait of the given
milliseconds between rounds. -/
inductive Event where
  | attempt (round strat : Nat)
  | wait (ms : Nat)
deriving DecidableEq, Repr

/-- The `{success, message, strategy}` record `clickWithRetry` returns. -/
structure RetryResult where
  success : Bool
  message : String
  strategy : String
deriving DecidableEq, Repr

/-- One round's inner `for (const strategy of strategies)` loop over the
remaining strategy positions: stop at the first `ok` outcome (returning
its position and message); `fail` and `thrown` both fall through to the
next strategy (the `catch` only continues the loop). Also returns the
attempts performed. -/
def tryFrom (env : Env) (round : Nat) : List Nat → Option (Nat × String) × List Event
  | [] => (none, [])
  | s :: rest =>
    match env round s with
    | .ok m => (some (s, m), [Event.attempt round s])
    | _ =>
      let r := tryFrom env round rest
      (r.1, Event.attempt round s :: r.2)

/-- The outer retry loop of `clickWithRetry`, from round `i` up to
`maxRetries`: run the strategy list; a success returns immediately with
the decorated message and strategy name; otherwise wait `waitBetween`
(only when `i < maxRetries - 1`) and recurse; exhaustion returns
`{success: false, strategy: 'none'}` with the aggregate message. -/
def runRounds (env : Env) (sel : String) (maxRetries waitBetween i : Nat) :
    RetryResult × List Event :=
  if _h : i < maxRetries then
    let r := tryFrom env i (List.range 5)
    match r.1 with
    | some (s, m) =>
      (⟨true,
        m ++ " (attempt " ++ toString (i + 1) ++ ", strategy: " ++
          strategyNames.getD s "" ++ ")",
        strategyNames.getD s ""⟩, r.2)
    | none =>
      let rest := runRounds env sel maxRetries waitBetween (i + 1)
      if i < maxRetries - 1 then
        (rest.1, r.2 ++ Event.wait waitBetween :: rest.2)
      else
        (rest.1, r.2 ++ rest.2)
  else
    (⟨false,
      "Failed to click " ++ sel ++ " after " ++ toString maxRetries ++
        " attempts with all strategies",
      "none"⟩, [])
termination_by maxRetries - i

/-- `clickWithRetry(world, selector, options)`: defaults
`maxRetries = options.maxRetries || 5`,
`waitBetween = options.waitBetween || 500`. Returns the result and the
trace of attempts/waits performed. -/
def clickWithRetry (env : Env) (sel : String)
    (maxRetriesOpt waitBetweenOpt : Option Nat) : RetryResult × List Event :=
  runRounds env sel (jsOrNat maxRetriesOpt 5) (jsOrNat waitBetweenOpt 500) 0

/-- Expected trace of a run in which every strategy fails in every round,
from round `i` on: five attempts per round, with a `wait` between
consecutive rounds (none after the last). -/
def allFailTrace (waitBetween maxRetries i : Nat) : List Event :=
  if _h : i < maxRetries then
    (List.range 5).map (Event.attempt i) ++
      (if i < maxRetries - 1 then
        Event.wait waitBetween :: allFailTrace waitBetween maxRetries (i + 1)
      else allFailTrace waitBetween maxRetries (i + 1))
  else []
termination_by maxRetries - i

/-- Expected trace of a run whose first success is strategy `s` of round
`r`, starting from round `i ≤ r`: full failing rounds with waits up to
`r`, then attempts `0..s` of round `r`. -/
def firstSuccTraceAux (waitBetween r s i : Nat) : List Event :=
  if _h : i < r then
    (List.range 5).map (Event.attempt i) ++
      Event.wait waitBetween :: firstSuccTraceAux waitBetween r s (i + 1)
  else (List.range (s + 1)).map (Event.attempt r)
termination_by r - i

/-! ## `queryElements` shape, `isElementVisible`, `selectDateRangeOption` -/

/-- One entry of a `queryElements` result. -/
structure QEl where
  text : String
  visible : Bool
deriving DecidableEq, Repr

/-- The `{count, elements}` payload `queryElements` returns. -/
structure QueryPayload where
  count : Nat
  elements : List QEl
deriving DecidableEq, Repr

/-- `isElementVisible`: `count > 0 && elements.some(el => el.visible)`. -/
def isElementVisible (q : QueryPayload) : Bool :=
  decide (0 < q.count) && q.elements.any (fun el => el.visible)

/-- `selectDateRangeOption(world, rangeKey)` after its two settle delays:
the click phase produced `clickRes` (a `clickWithRetry` result with
`maxRetries: 3, waitBetween: 300`); `q` is the `queryElements` answer for
`li[data-range-key="rangeKey"]` at verification time. The reported
outcome depends only on whether that element is still visible. -/
def selectDateRangeOption (rangeKey : String) (clickRes : RetryResult)
    (q : QueryPayload) : RetryResult :=
  let stillVisible := isElementVisible q
  if !stillVisible then
    ⟨true,
      "Successfully selected date range: " ++ rangeKey ++ " using " ++
        clickRes.strategy,
      clickRes.strategy⟩
  else
    ⟨false, "Clicked " ++ rangeKey ++ " but dropdown did not close",
      clickRes.strategy⟩

/-- Verdict of a Cucumber step definition: the step body either completes
(the scenario continues) or throws (the scenario fails). -/
inductive StepOutcome where
  | passed
  | failedStep (msg : String)
deriving DecidableEq, Repr

/-- The result handling of
`I select option {int} from Select2 dropdown labeled {string}` after the
selection script ran: throw when the script reported `success: false`,
otherwise wait 500ms, screenshot, and finish. The step performs no
dropdown-invisibility verification, so the container's visibility after
the click (`containerVisibleAfterClick`, an environment fact) is passed
through untouched and never consulted. -/
def select2IndexStep (cs : List Container) (optionIndex : Int)
    (containerVisibleAfterClick : Bool) : StepOutcome × Bool :=
  if (selectByIndexScript cs optionIndex).success then
    (.passed, containerVisibleAfterClick)
  else
    (.failedStep "Failed to select option", containerVisibleAfterClick)

/-! ## Exceptions across the helper layer (`Except` embedding)

The helper functions run in JS where a call can throw. The two relevant
exception families are the explicit precondition throw
(`'Playwright MCP client not initialized'`) and a rejection of the MCP
transport (`callTool` failing: browser/session gone, malformed reply). -/

/-- A thrown JS error at the helper layer. -/
inductive JsError where
  | notInitialized
  | transport (msg : String)
deriving DecidableEq, Repr

/-- `(error as Error).message` -/
def JsError.message : JsError → String
  | .notInitialized => "Playwright MCP client not initialized"
  | .transport m => m

/-- A parsed `{success, message}` payload returned over the transport
(`message` may be absent). -/
structure ParsedResult where
  success : Bool
  message : Option String
deriving DecidableEq, Repr

/-- A bounding box as delivered in inspection payloads
(`{x, y, width, height}` in float pixels). -/
structure BBox where
  x : ℚ
  y : ℚ
  width : ℚ
  height : ℚ
deriving DecidableEq, Repr

/-- Parsed payload of the `inspectDetailed` tool as consumed by the
helper layer: `success`, the `details` object (represented by its
`boundingBox`, `none` when `details` is `null`), and an optional
`message`. -/
structure InspectParsed where
  success : Bool
  details : Option BBox
  message : Option String
deriving DecidableEq, Repr

/-- `clickElement(world, selector, options)`: throws when the provider is
not initialized, otherwise returns the parsed `callTool` reply — there is
no try/catch, so a transport rejection propagates. -/
def clickElementH (init : Bool) (call : Except JsError ParsedResult) :
    Except JsError ParsedResult :=
  if !init then .error .notInitialized else call

/-- The `{success, details, message}` record `inspectElementDetailed`
returns. -/
structure InspectResultH where
  success : Bool
  details : Option BBox
  message : String
deriving DecidableEq, Repr

/-- `inspectElementDetailed(world, selector)`: throws when the provider
is not initialized (the check precedes the try), otherwise a transport
error is caught and reported as a `success: false` result. -/
def inspectElementDetailedH (sel : String) (init : Bool)
    (call : Except JsError InspectParsed) : Except JsError InspectResultH :=
  if !init then .error .notInitialized
  else
    match call with
    | .ok p => .ok ⟨p.success, p.details, jsOrString p.message ("Inspected " ++ sel)⟩
    | .error e => .ok ⟨false, none, "Failed to inspect element: " ++ e.message⟩

/-- The `{success, position, message}` record `getElementPosition`
returns (`position` is the inspected `boundingBox`). -/
structure PositionResultH where
  success : Bool
  position : Option BBox
  message : String
deriving DecidableEq, Repr

/-- `getElementPosition(world, selector)`: throws when the provider is
not initialized (check precedes the try); otherwise inspects the element
and fails with a message when inspection failed or `details` is null. -/
def getElementPositionH (sel : String) (init : Bool)
    (call : Except JsError InspectParsed) : Except JsError PositionResultH :=
  if !init then .error .notInitialized
  else
    match inspectElementDetailedH sel init call with
    | .error e =>
      .ok ⟨false, none, "Failed to get element position: " ++ e.message⟩
    | .ok r =>
      if !r.success || r.details.isNone then
        .ok ⟨false, none, "Failed to get element position: " ++ r.message⟩
      else
        .ok ⟨true, r.details, "Got position for " ++ sel⟩

/-- The `{success, x, y, message}` record `calculateRelativeCoordinates`
returns. -/
structure CoordsResultH where
  success : Bool
  x : Int
  y : Int
  message : String
deriving DecidableEq, Repr

/-- `calculateRelativeCoordinates(world, selector, offsetX, offsetY,
useCenter)`: the whole body is inside a try, so even the provider
precondition throw of `getElementPosition` is caught and reported as a
failure result; on success the click point is
`Math.round(base + offset)` with `base` the box origin, shifted to the
center when `useCenter`. -/
def calculateRelativeCoordinatesH (sel : String) (init : Bool)
    (call : Except JsError InspectParsed) (offsetX offsetY : ℚ)
    (useCenter : Bool) : CoordsResultH :=
  match getElementPositionH sel init call with
  | .error e => ⟨false, 0, 0, "Failed to calculate coordinates: " ++ e.message⟩
  | .ok pos =>
    match pos.position with
    | none => ⟨false, 0, 0, "Failed to get base element position: " ++ pos.message⟩
    | some box =>
      if !pos.success then
        ⟨false, 0, 0, "Failed to get base element position: " ++ pos.message⟩
      else
        let baseX := box.x + (if useCenter then box.width / 2 else 0)
        let baseY := box.y + (if useCenter then box.height / 2 else 0)
        let finalX := jsRound (baseX + offsetX)
        let finalY := jsRound (baseY + offsetY)
        ⟨true, finalX, finalY,
          "Calculated coordinates: (" ++ toString finalX ++ ", " ++
            toString finalY ++ ") from " ++ sel⟩

/-- The `{success, message}` record `clickAtCoordinates` returns. -/
structure ClickAtResultH where
  success : Bool
  message : String
deriving DecidableEq, Repr

/-- `clickAtCoordinates(world, x, y)`: throws when the provider is not
initialized (check precedes the try); a transport error is caught and
reported as a failure result. Also returns the coordinates actually sent
to the provider (`none` when the provider was never invoked). -/
def clickAtCoordinatesH (init : Bool)
    (call : Int → Int → Except JsError ParsedResult) (x y : Int) :
    Except JsError ClickAtResultH × Option (Int × Int) :=
  if !init then (.error .notInitialized, none)
  else
    match call x y with
    | .ok p =>
      (.ok ⟨p.success,
        jsOrString p.message
          ("Clicked at (" ++ toString x ++ ", " ++ toString y ++ ")")⟩,
        some (x, y))
    | .error e =>
      (.ok ⟨false, "Failed to click at coordinates: " ++ e.message⟩,
        some (x, y))

/-- The `{success, message, coordinates}` record
`clickRelativeToElement` returns. -/
structure RelClickResultH where
  success : Bool
  message : String
  x : Int
  y : Int
deriving DecidableEq, Repr

/-- `clickRelativeToElement(world, selector, offsetX, offsetY,
useCenter)`: compute the relative coordinates; when that fails, return
the failure without clicking; otherwise click at the computed point and
decorate the message. The second component is the coordinate click
actually dispatched (`none` = no click attempted). -/
def clickRelativeToElementH (sel : String) (init : Bool)
    (inspectCall : Except JsError InspectParsed)
    (clickCall : Int → Int → Except JsError ParsedResult)
    (offsetX offsetY : ℚ) (useCenter : Bool) :
    Except JsError RelClickResultH × Option (Int × Int) :=
  let coords := calculateRelativeCoordinatesH sel init inspectCall offsetX offsetY useCenter
  if !coords.success then
    (.ok ⟨false, coords.message, 0, 0⟩, none)
  else
    let c := clickAtCoordinatesH init clickCall coords.x coords.y
    match c.1 with
    | .error e => (.error e, c.2)
    | .ok cr =>
      (.ok ⟨cr.success,
        cr.message ++ " (relative to " ++ sel ++ ")",
        coords.x, coords.y⟩, c.2)

/-- Replace every thrown strategy outcome by a plain failure. -/
def censorThrown (env : Env) : Env := fun r s =>
  match env r s with
  | .thrown => .fail "swallowed"
  | o => o

/-- Whether an event is an inter-round `setTimeout` wait. -/
def Event.isWait : Event → Bool
  | .wait _ => true
  | _ => false

/-! ## Concrete page states used by scenario witnesses -/

/-- The `Loading results…` placeholder row of a Select2 result list. -/
def optLoading : OptionEl := ⟨true, some "option", none, [], "Loading results…"⟩

/-- A real, selectable option with text `Option A`. -/
def optA : OptionEl := ⟨true, some "option", none, [], "Option A"⟩

/-- A real, selectable option with text `Option B`. -/
def optB : OptionEl := ⟨true, some "option", none, [], "Option B"⟩

/-- A visible container holding `Loading results…`, `Option A`,
`Option B` in that raw document order. -/
def containerLoadingAB : Container := ⟨true, none, [optLoading, optA, optB]⟩

/-- A visible container with explicit `z-index: 5`. -/
def containerZ5 : Container := ⟨true, some 5, [optA]⟩

/-- A visible container with explicit `z-index: 10`. -/
def containerZ10 : Container := ⟨true, some 10, [optB]⟩

/-- A visible container with `z-index: auto`, holding `Option A`. -/
def containerAutoA : Container := ⟨true, none, [optA]⟩

/-- A visible container with `z-index: auto`, holding `Option B`. -/
def containerAutoB : Container := ⟨true, none, [optB]⟩

/-- A browser in which only strategy `s` of round `r` succeeds and every
other attempt fails. -/
def envSucceedsAt (r s : Nat) : Env := fun r' s' =>
  if r' = r ∧ s' = s then .ok "clicked" else .fail "not clickable"

/-- A browser in which every attempt fails (selector matches nothing). -/
def envAllFail : Env := fun _ _ => .fail "not clickable"

/-- A zero-area element that passes every CSS-level visibility check:
laid out (`offsetParent` non-null), `display: block`,
`visibility: visible`, `opacity: 1`, but `0 × 0` pixels. -/
def zeroAreaEl : InspectedEl := ⟨true, "block", "visible", some 1, 0, 0, 0, 0⟩

/-- A successful inspection payload whose bounding box sits at the
fractional x-coordinate `0.5` (bounding rects are float pixels). -/
def inspectOkHalfPx : Except JsError InspectParsed :=
  .ok ⟨true, some ⟨1/2, 0, 0, 0⟩, some "ok"⟩

/-- A successful inspection payload with box origin `(10, 20)` and size
`30 × 40`. -/
def inspectOkBox : Except JsError InspectParsed :=
  .ok ⟨true, some ⟨10, 20, 30, 40⟩, some "ok"⟩

/-- A coordinate-click provider that always reports success. -/
def clickCallOk : Int → Int → Except JsError ParsedResult :=
  fun _ _ => .ok ⟨true, some "clicked"⟩

/-! # Theorems -/

/-- C2 (counterexample): an element with zero bounding-box area but
`offsetParent` non-null, `display: block`, `visibility: visible` and
`opacity: 1` is reported by `inspectDetailed` with `isVisible = true`,
although its area is `0`. The computed `isVisible` never consults the
bounding box, so zero area does not force `isVisible` to be false. -/
theorem inspectDetailed_zero_area_reported_visible :
    inspectIsVisible zeroAreaEl = true ∧ zeroAreaEl.area = 0 := by
  refine ⟨by decide, by simp [zeroAreaEl, InspectedEl.area]⟩

/-- C2 (amended): the `isVisible` flag computed by `inspectDetailed` is
exactly `offsetParent` non-null AND `display ≠ 'none'` AND
`visibility ≠ 'hidden'` AND parsed `opacity > 0`; the bounding-box area
plays no part in it (a zero-area element can be reported visible). -/
theorem inspectDetailed_isVisible_characterization (e : InspectedEl) :
    inspectIsVisible e = true ↔
      (e.offsetParentNonNull = true ∧ e.display ≠ "none" ∧
        e.visibility ≠ "hidden" ∧ ∃ v, e.opacity = some v ∧ 0 < v) := by
  unfold inspectIsVisible
  cases ho : e.opacity with
  | none => simp [ho]
  | some v => simp [ho, and_assoc]

/-- C5 (counterexample): the Select2 index-selection step performs no
dropdown-invisibility verification: on a page whose topmost container
holds one valid option, selecting index 1 makes the step pass even
though the container is still visible after the click (post-state
`true`). A successful result therefore does not imply the container
became invisible. -/
theorem select2IndexStep_success_with_container_still_visible :
    select2IndexStep [containerAutoA] 1 true = (.passed, true) := by
  decide

/-- C5 (amended): for `selectDateRangeOption` the invisibility of the
`li[data-range-key]` element after the settle delay is the success
signal: the call reports `success: true` exactly when the element is no
longer visible, and reports failure whenever it is still visible, even
when the click dispatch itself reported no error. The Select2
index-selection step, by contrast, performs no such verification (see
the counterexample). -/
theorem selectDateRange_success_iff_target_invisible
    (rangeKey : String) (clickRes : RetryResult) (q : QueryPayload) :
    (selectDateRangeOption rangeKey clickRes q).success = true ↔
      isElementVisible q = false := by
  unfold selectDateRangeOption
  cases h : isElementVisible q <;> simp [h]

/-- C10: the outcome of `selectDateRangeOption` is determined solely by
whether an element matching `li[data-range-key="<rangeKey>"]` is still
visible at verification time: `success` is the negation of that
visibility, it is unchanged under an arbitrary replacement of the click
phase's result (so every strategy failing, or the element never having
existed, still yields `success: true` when nothing is visible), and the
click result only contributes the reported strategy name. -/
theorem selectDateRange_outcome_solely_visibility
    (rangeKey : String) (clickRes clickRes' : RetryResult) (q : QueryPayload) :
    (selectDateRangeOption rangeKey clickRes q).success = !(isElementVisible q) ∧
    (selectDateRangeOption rangeKey clickRes q).success =
      (selectDateRangeOption rangeKey clickRes' q).success ∧
    (selectDateRangeOption rangeKey clickRes q).strategy = clickRes.strategy := by
  unfold selectDateRangeOption
  cases h : isElementVisible q <;> simp [h]

/-- C8 (counterexample): a transport failure (`callTool` rejecting, e.g.
the browser session closed) during the `inspect` entry point does not
throw: `inspectElementDetailed` catches it and returns a
`success: false` result, contradicting the claim that TransportFailure
throws immediately from every entry point. -/
theorem inspect_transport_failure_not_rethrown :
    inspectElementDetailedH "#target" true
        (.error (.transport "browser session closed")) =
      .ok ⟨false, none, "Failed to inspect element: browser session closed"⟩ := by
  rfl

/-- C1: selecting by 1-based index `i` always acts on the `i`-th element
of the filtered valid candidate list of the chosen (topmost) container —
the option the mouse-event triplet is dispatched on is
`validOptions[i-1]` — and an index outside the range of the valid list
(below 1 or above its length) is a resolution failure with no option
acted on. The raw unfiltered option list never determines the index. -/
theorem select2_index_acts_on_filtered_list
    (cs : List Container) (top : Container) (i : Int)
    (htop : pickTopContainer cs = some top) :
    ((1 ≤ i ∧ i ≤ ((top.options.filter isValidOptionIdx).length : Int)) →
      (selectByIndexScript cs i).success = true ∧
      (selectByIndexScript cs i).clicked =
        (top.options.filter isValidOptionIdx)[(i - 1).toNat]?) ∧
    ((i < 1 ∨ ((top.options.filter isValidOptionIdx).length : Int) < i) →
      (selectByIndexScript cs i).success = false ∧
      (selectByIndexScript cs i).clicked = none) := by
  simp only [selectByIndexScript, htop]
  constructor
  · rintro ⟨h1, h2⟩
    have hcond : i - 1 < ((top.options.filter isValidOptionIdx).length : Int) ∧
        0 ≤ i - 1 := by omega
    rw [if_pos hcond]
    have hlt : (i - 1).toNat < (top.options.filter isValidOptionIdx).length := by
      omega
    rw [List.getElem?_eq_getElem hlt]
    exact ⟨rfl, rfl⟩
  · intro h
    have hcond : ¬(i - 1 < ((top.options.filter isValidOptionIdx).length : Int) ∧
        0 ≤ i - 1) := by omega
    rw [if_neg hcond]
    exact ⟨rfl, rfl⟩

/-- C1 (witness): with raw options
`["Loading results…", "Option A", "Option B"]`, index 1 resolves to
`Option A` — the first element of the filtered list — and not to the
first element `Loading results…` of the raw list. -/
theorem select2_index_acts_on_filtered_list_witness :
    ((selectByIndexScript [containerLoadingAB] 1).success = true ∧
      (selectByIndexScript [containerLoadingAB] 1).clicked =
        (containerLoadingAB.options.filter isValidOptionIdx)[((1 : Int) - 1).toNat]?) ∧
    (selectByIndexScript [containerLoadingAB] 1).clicked = some optA ∧
    containerLoadingAB.options[0]? = some optLoading ∧
    optA ≠ optLoading := by
  refine ⟨(select2_index_acts_on_filtered_list [containerLoadingAB]
      containerLoadingAB 1 (by decide)).1 (by decide), by decide, by decide, by decide⟩

/-- C7: the text-selection script resolves its target in this order over
the filtered valid candidates: first valid option whose trimmed text is
an exact match, else first whose trimmed text contains the target as a
substring, else (last resort) the first valid option of all. -/
theorem select2_text_resolution_order (opts : List OptionEl) (target : String) :
    (∀ o, (opts.filter isValidOptionTxt).find? (fun o => o.textTrim == target) =
        some o →
      (selectByTextScript opts target).clicked = some o ∧
      (selectByTextScript opts target).success = true) ∧
    ((opts.filter isValidOptionTxt).find? (fun o => o.textTrim == target) = none →
      ∀ o, (opts.filter isValidOptionTxt).find?
          (fun o => strIncludes o.textTrim target) = some o →
        (selectByTextScript opts target).clicked = some o ∧
        (selectByTextScript opts target).success = true) ∧
    ((opts.filter isValidOptionTxt).find? (fun o => o.textTrim == target) = none →
      (opts.filter isValidOptionTxt).find?
          (fun o => strIncludes o.textTrim target) = none →
      (selectByTextScript opts target).clicked =
        (opts.filter isValidOptionTxt).head?) := by
  refine ⟨?_, ?_, ?_⟩
  · intro o h
    simp only [selectByTextScript, h]
    exact ⟨trivial, trivial⟩
  · intro hex o h
    simp only [selectByTextScript, hex, h]
    exact ⟨trivial, trivial⟩
  · intro hex hsub
    simp only [selectByTextScript, hex, hsub]
    cases (opts.filter isValidOptionTxt).head? <;> rfl

/-- C7 (witness): selecting text `Option` among candidates
`["Option A", "Option B"]` has no exact match and falls back to the
substring phase, selecting `Option A`, the first match in enumeration
order. -/
theorem select2_text_resolution_order_witness :
    (selectByTextScript [optA, optB] "Option").clicked = some optA ∧
    (selectByTextScript [optA, optB] "Option").success = true := by
  exact (select2_text_resolution_order [optA, optB] "Option").2.1
    (by decide) optA (by decide)

/-- C4 (counterexample): with two visible containers that both lack an
explicit numeric z-index (`z-index: auto`, effective `0`), the
index-selection script picks the FIRST one in document order, not the
last as claimed: the strict `>` comparison in the fold keeps the earliest
container on ties. -/
theorem pickTop_tie_resolves_to_first_not_last :
    pickTopContainer [containerAutoA, containerAutoB] = some containerAutoA ∧
    pickTopContainer [containerAutoA, containerAutoB] ≠ some containerAutoB := by
  decide

/-! ## Resolver loop lemmas -/

/-- A strategy that reports success stops the inner loop at once. -/
theorem tryFrom_cons_ok (env : Env) (round s : Nat) (rest : List Nat) (m : String)
    (h : env round s = .ok m) :
    tryFrom env round (s :: rest) = (some (s, m), [Event.attempt round s]) := by
  simp [tryFrom, h]

/-- A failing or throwing strategy falls through to the rest of the list. -/
theorem tryFrom_cons_notOk (env : Env) (round s : Nat) (rest : List Nat)
    (h : (env round s).isOk = false) :
    tryFrom env round (s :: rest) =
      ((tryFrom env round rest).1,
        Event.attempt round s :: (tryFrom env round rest).2) := by
  cases he : env round s with
  | ok m => rw [he] at h; simp [Outcome.isOk] at h
  | fail m => simp [tryFrom, he]
  | thrown => simp [tryFrom, he]

/-- When no strategy in the list succeeds, all are attempted in order. -/
theorem tryFrom_allFail (env : Env) (round : Nat) (l : List Nat)
    (h : ∀ s ∈ l, (env round s).isOk = false) :
    tryFrom env round l = (none, l.map (Event.attempt round)) := by
  induction l with
  | nil => rfl
  | cons s rest ih =>
    rw [tryFrom_cons_notOk env round s rest (h s (by simp))]
    rw [ih (fun x hx => h x (by simp [hx]))]
    rfl

/-- Splitting lemma: failures before the first success, then the success. -/
theorem tryFrom_split (env : Env) (round : Nat) (l1 l2 : List Nat) (s : Nat)
    (m : String) (h1 : ∀ x ∈ l1, (env round x).isOk = false)
    (hok : env round s = .ok m) :
    tryFrom env round (l1 ++ s :: l2) =
      (some (s, m), l1.map (Event.attempt round) ++ [Event.attempt round s]) := by
  induction l1 with
  | nil => simpa using tryFrom_cons_ok env round s l2 m hok
  | cons a rest ih =>
    rw [List.cons_append, tryFrom_cons_notOk env round a _ (h1 a (by simp))]
    rw [ih (fun x hx => h1 x (by simp [hx]))]
    rfl

/-- Over the five-strategy list, the first success at position `s` stops
the round after attempts `0..s`. -/
theorem tryFrom_range5_firstOk (env : Env) (round s : Nat) (m : String)
    (hs : s < 5) (hok : env round s = .ok m)
    (hbefore : ∀ s' < s, (env round s').isOk = false) :
    tryFrom env round (List.range 5) =
      (some (s, m), (List.range (s + 1)).map (Event.attempt round)) := by
  interval_cases s
  · simpa using tryFrom_split env round [] [1, 2, 3, 4] 0 m (by simp) hok
  · have h1 : ∀ x ∈ [0], (env round x).isOk = false := by
      intro x hx; fin_cases hx; exact hbefore 0 (by norm_num)
    simpa using tryFrom_split env round [0] [2, 3, 4] 1 m h1 hok
  · have h1 : ∀ x ∈ [0, 1], (env round x).isOk = false := by
      intro x hx; fin_cases hx
      · exact hbefore 0 (by norm_num)
      · exact hbefore 1 (by norm_num)
    simpa using tryFrom_split env round [0, 1] [3, 4] 2 m h1 hok
  · have h1 : ∀ x ∈ [0, 1, 2], (env round x).isOk = false := by
      intro x hx; fin_cases hx
      · exact hbefore 0 (by norm_num)
      · exact hbefore 1 (by norm_num)
      · exact hbefore 2 (by norm_num)
    simpa using tryFrom_split env round [0, 1, 2] [4] 3 m h1 hok
  · have h1 : ∀ x ∈ [0, 1, 2, 3], (env round x).isOk = false := by
      intro x hx; fin_cases hx
      · exact hbefore 0 (by norm_num)
      · exact hbefore 1 (by norm_num)
      · exact hbefore 2 (by norm_num)
      · exact hbefore 3 (by norm_num)
    simpa using tryFrom_split env round [0, 1, 2, 3] [] 4 m h1 hok

/-- When every round fails, the loop runs to exhaustion and produces the
aggregate failure with the full trace. -/
theorem runRounds_allFail (env : Env) (sel : String) (M W : Nat)
    (h : ∀ r < M, ∀ s < 5, (env r s).isOk = false) :
    ∀ k i, M - i ≤ k →
      runRounds env sel M W i =
        (⟨false, "Failed to click " ++ sel ++ " after " ++ toString M ++
            " attempts with all strategies", "none"⟩,
         allFailTrace W M i) := by
  intro k
  induction k with
  | zero =>
    intro i hi
    have hM : ¬ i < M := by omega
    rw [runRounds, allFailTrace]
    simp [hM]
  | succ k ih =>
    intro i hi
    by_cases hM : i < M
    · have htry := tryFrom_allFail env i (List.range 5)
        (fun s hs => h i hM s (by simpa using hs))
      rw [runRounds, allFailTrace]
      simp only [dif_pos hM, htry]
      rw [ih (i + 1) (by omega)]
      by_cases hlast : i < M - 1
      · simp [hlast]
      · simp [hlast]
    · rw [runRounds, allFailTrace]
      simp [hM]

/-- The round holding the first success returns the decorated success. -/
theorem runRounds_atSuccess (env : Env) (sel : String) (M W r s : Nat)
    (m : String) (hr : r < M) (hs : s < 5) (hok : env r s = .ok m)
    (hsame : ∀ s' < s, (env r s').isOk = false) :
    runRounds env sel M W r =
      (⟨true, m ++ " (attempt " ++ toString (r + 1) ++ ", strategy: " ++
          strategyNames.getD s "" ++ ")", strategyNames.getD s ""⟩,
       (List.range (s + 1)).map (Event.attempt r)) := by
  rw [runRounds]
  simp only [dif_pos hr, tryFrom_range5_firstOk env r s m hs hok hsame]

/-- Full behaviour up to the first success: failed rounds, waits, then
the partial successful round. -/
theorem runRounds_firstSucc (env : Env) (sel : String) (M W r s : Nat)
    (m : String) (hr : r < M) (hs : s < 5) (hok : env r s = .ok m)
    (hbefore : ∀ r' < r, ∀ s' < 5, (env r' s').isOk = false)
    (hsame : ∀ s' < s, (env r s').isOk = false) :
    ∀ k i, r - i ≤ k → i ≤ r →
      runRounds env sel M W i =
        (⟨true, m ++ " (attempt " ++ toString (r + 1) ++ ", strategy: " ++
            strategyNames.getD s "" ++ ")", strategyNames.getD s ""⟩,
         firstSuccTraceAux W r s i) := by
  intro k
  induction k with
  | zero =>
    intro i hk hir
    have hieq : i = r := by omega
    subst hieq
    rw [firstSuccTraceAux]
    simp only [lt_irrefl, dif_neg (lt_irrefl i)]
    exact runRounds_atSuccess env sel M W i s m hr hs hok hsame
  | succ k ih =>
    intro i hk hir
    by_cases hieq : i = r
    · subst hieq
      rw [firstSuccTraceAux]
      simp only [dif_neg (lt_irrefl i)]
      exact runRounds_atSuccess env sel M W i s m hr hs hok hsame
    · have hilt : i < r := by omega
      have htry := tryFrom_allFail env i (List.range 5)
        (fun x hx => hbefore i hilt x (by simpa using hx))
      rw [runRounds, firstSuccTraceAux]
      have hiM : i < M := by omega
      simp only [dif_pos hiM, dif_pos hilt, htry]
      rw [ih (i + 1) (by omega) (by omega)]
      have hlast : i < M - 1 := by omega
      simp [hlast]

/-- Every attempt of an all-fail run appears in its trace. -/
theorem allFailTrace_mem_attempt (W M : Nat) :
    ∀ k i r s, M - i ≤ k → i ≤ r → r < M → s < 5 →
      Event.attempt r s ∈ allFailTrace W M i := by
  intro k
  induction k with
  | zero => intro i r s hk hir hrM hs; omega
  | succ k ih =>
    intro i r s hk hir hrM hs
    have hiM : i < M := by omega
    rw [allFailTrace]
    simp only [dif_pos hiM]
    by_cases hieq : i = r
    · subst hieq
      apply List.mem_append_left
      simp only [List.mem_map]
      exact ⟨s, by simpa using hs, rfl⟩
    · apply List.mem_append_right
      have hrec := ih (i + 1) r s (by omega) (by omega) hrM hs
      by_cases hlast : i < M - 1
      · simp only [if_pos hlast]
        exact List.mem_cons_of_mem _ hrec
      · simp only [if_neg hlast]
        exact hrec

/-- An all-fail run waits exactly once between consecutive rounds. -/
theorem allFailTrace_countP_wait (W M : Nat) :
    ∀ k i, M - i ≤ k →
      (allFailTrace W M i).countP Event.isWait = M - 1 - i := by
  intro k
  induction k with
  | zero =>
    intro i hk
    have hM : ¬ i < M := by omega
    rw [allFailTrace]
    simp only [dif_neg hM, List.countP_nil]
    omega
  | succ k ih =>
    intro i hk
    by_cases hiM : i < M
    · rw [allFailTrace]
      simp only [dif_pos hiM, List.countP_append]
      have hattempts :
          ((List.range 5).map (Event.attempt i)).countP Event.isWait = 0 := by
        simp [List.countP_map, Event.isWait, Function.comp]
      rw [hattempts]
      by_cases hlast : i < M - 1
      · simp only [if_pos hlast, List.countP_cons]
        rw [ih (i + 1) (by omega)]
        simp [Event.isWait]
        omega
      · simp only [if_neg hlast]
        rw [ih (i + 1) (by omega)]
        omega
    · rw [allFailTrace]
      simp only [dif_neg hiM, List.countP_nil]
      omega

/-- Every wait of an all-fail run is the configured `waitBetween`. -/
theorem allFailTrace_wait_val (W M : Nat) :
    ∀ k i ms, M - i ≤ k → Event.wait ms ∈ allFailTrace W M i → ms = W := by
  intro k
  induction k with
  | zero =>
    intro i ms hk hmem
    have hM : ¬ i < M := by omega
    rw [allFailTrace] at hmem
    simp [dif_neg hM] at hmem
  | succ k ih =>
    intro i ms hk hmem
    by_cases hiM : i < M
    · rw [allFailTrace] at hmem
      simp only [dif_pos hiM, List.mem_append] at hmem
      rcases hmem with hmem | hmem
      · simp [List.mem_map] at hmem
      · by_cases hlast : i < M - 1
        · rw [if_pos hlast] at hmem
          rcases List.mem_cons.mp hmem with heq | hmem
          · injection heq
          · exact ih (i + 1) ms (by omega) hmem
        · rw [if_neg hlast] at hmem
          exact ih (i + 1) ms (by omega) hmem
    · rw [allFailTrace] at hmem
      simp [dif_neg hiM] at hmem

/-- Every attempt recorded before the first success is lexicographically
no later than the successful (round, strategy) pair. -/
theorem firstSuccTraceAux_attempt_bound (W r s : Nat) :
    ∀ k i r' s', r - i ≤ k →
      Event.attempt r' s' ∈ firstSuccTraceAux W r s i →
      r' < r ∨ (r' = r ∧ s' ≤ s) := by
  intro k
  induction k with
  | zero =>
    intro i r' s' hk hmem
    have hnlt : ¬ i < r := by omega
    rw [firstSuccTraceAux] at hmem
    simp only [dif_neg hnlt, List.mem_map] at hmem
    obtain ⟨b, hb, heq⟩ := hmem
    injection heq with h1 h2
    right
    refine ⟨h1.symm, ?_⟩
    simp only [List.mem_range] at hb
    omega
  | succ k ih =>
    intro i r' s' hk hmem
    by_cases hilt : i < r
    · rw [firstSuccTraceAux] at hmem
      simp only [dif_pos hilt, List.mem_append] at hmem
      rcases hmem with hmem | hmem
      · simp only [List.mem_map] at hmem
        obtain ⟨b, _, heq⟩ := hmem
        injection heq with h1 h2
        left
        omega
      · rcases List.mem_cons.mp hmem with heq | hmem
        · exact absurd heq (by simp)
        · exact ih (i + 1) r' s' (by omega) hmem
    · rw [firstSuccTraceAux] at hmem
      simp only [dif_neg hilt, List.mem_map] at hmem
      obtain ⟨b, hb, heq⟩ := hmem
      injection heq with h1 h2
      right
      refine ⟨h1.symm, ?_⟩
      simp only [List.mem_range] at hb
      omega

/-- A thrown strategy outcome drives the inner loop exactly like a
reported failure. -/
theorem tryFrom_censor (env : Env) (round : Nat) (l : List Nat) :
    tryFrom (censorThrown env) round l = tryFrom env round l := by
  induction l with
  | nil => rfl
  | cons s rest ih =>
    cases he : env round s with
    | ok m => simp [tryFrom, censorThrown, he]
    | fail m => simp [tryFrom, censorThrown, he, ih]
    | thrown => simp [tryFrom, censorThrown, he, ih]

/-- The whole retry loop cannot distinguish a thrown strategy from a
failing one: exceptions never escape the loop. -/
theorem runRounds_censor (env : Env) (sel : String) (M W : Nat) :
    ∀ k i, M - i ≤ k →
      runRounds (censorThrown env) sel M W i = runRounds env sel M W i := by
  intro k
  induction k with
  | zero =>
    intro i hk
    have hM : ¬ i < M := by omega
    rw [runRounds]
    conv_rhs => rw [runRounds]
    simp [hM]
  | succ k ih =>
    intro i hk
    by_cases hM : i < M
    · rw [runRounds]
      conv_rhs => rw [runRounds]
      simp only [dif_pos hM, tryFrom_censor]
      cases htry : (tryFrom env i (List.range 5)).1 with
      | some p => rfl
      | none =>
        rw [ih (i + 1) (by omega)]
    · rw [runRounds]
      conv_rhs => rw [runRounds]
      simp [hM]

/-! ## Topmost-container fold lemmas -/

/-- The fold never replaces its accumulator when no remaining visible
container beats the running maximum. -/
theorem pickFold_no_update (cs : List Container) :
    ∀ (a : Option Container) (z : Int),
      (∀ c ∈ cs, c.visible = true → c.effZ ≤ z) →
      cs.foldl pickStep (a, z) = (a, z) := by
  induction cs with
  | nil => intro a z _; rfl
  | cons d rest ih =>
    intro a z h
    have hstep : pickStep (a, z) d = (a, z) := by
      cases hv : d.visible with
      | false => simp [pickStep, hv]
      | true =>
        have hle := h d (List.mem_cons_self d rest) hv
        simp only [pickStep, hv, if_true]
        rw [if_neg (by omega)]
    rw [List.foldl_cons, hstep]
    exact ih a z (fun c hc hvc => h c (List.mem_cons_of_mem d hc) hvc)

/-- A visible container whose effective z-index strictly dominates every
other visible container (and the running maximum) wins the fold. -/
theorem pickFold_strict_max (c : Container) :
    ∀ (cs : List Container) (a : Option Container) (z : Int),
      c ∈ cs → c.visible = true → z < c.effZ →
      (∀ cx ∈ cs, cx.visible = true → cx ≠ c → cx.effZ < c.effZ) →
      cs.foldl pickStep (a, z) = (some c, c.effZ) := by
  intro cs
  induction cs with
  | nil => intro a z hmem; cases hmem
  | cons d rest ih =>
    intro a z hmem hvis hz hmax
    by_cases hdc : d = c
    · subst hdc
      have hstep : pickStep (a, z) d = (some d, d.effZ) := by
        simp only [pickStep, hvis, if_true]
        rw [if_pos (by omega)]
      rw [List.foldl_cons, hstep]
      apply pickFold_no_update
      intro cx hcx hvx
      by_cases hxd : cx = d
      · subst hxd; exact le_refl _
      · exact le_of_lt (hmax cx (List.mem_cons_of_mem d hcx) hvx hxd)
    · have hcrest : c ∈ rest := by
        rcases List.mem_cons.mp hmem with h | h
        · exact absurd h.symm hdc
        · exact h
      have hmaxrest : ∀ cx ∈ rest, cx.visible = true → cx ≠ c → cx.effZ < c.effZ :=
        fun cx hcx hvx hne => hmax cx (List.mem_cons_of_mem d hcx) hvx hne
      rw [List.foldl_cons]
      cases hv : d.visible with
      | false =>
        have hstep : pickStep (a, z) d = (a, z) := by simp [pickStep, hv]
        rw [hstep]
        exact ih a z hcrest hvis hz hmaxrest
      | true =>
        have hdlt : d.effZ < c.effZ :=
          hmax d (List.mem_cons_self d rest) hv hdc
        by_cases hgt : d.effZ > z
        · have hstep : pickStep (a, z) d = (some d, d.effZ) := by
            simp only [pickStep, hv, if_true]
            rw [if_pos hgt]
          rw [hstep]
          exact ih (some d) d.effZ hcrest hvis hdlt hmaxrest
        · have hstep : pickStep (a, z) d = (a, z) := by
            simp only [pickStep, hv, if_true]
            rw [if_neg hgt]
          rw [hstep]
          exact ih a z hcrest hvis hz hmaxrest

/-- C4 (amended): the index-selection script operates exclusively on the
visible container with the strictly highest effective z-index (above the
`-1` sentinel): that container is picked, and any option the script
dispatches events on belongs to it. On effective-z-index ties the FIRST
visible container in document order wins (not the last, see the
counterexample); the last-in-document-order fallback only applies when no
container is visible at all. -/
theorem pickTop_strict_max_selected (cs : List Container) (c : Container)
    (hmem : c ∈ cs) (hvis : c.visible = true) (hz : -1 < c.effZ)
    (hmax : ∀ cx ∈ cs, cx.visible = true → cx ≠ c → cx.effZ < c.effZ) :
    pickTopContainer cs = some c ∧
    ∀ i o, (selectByIndexScript cs i).clicked = some o → o ∈ c.options := by
  have hfold := pickFold_strict_max c cs none (-1) hmem hvis hz hmax
  have hpick : pickTopContainer cs = some c := by
    simp only [pickTopContainer, hfold]
  refine ⟨hpick, ?_⟩
  intro i o h
  simp only [selectByIndexScript, hpick] at h
  by_cases hcond :
      (i - 1 < (((c.options.filter isValidOptionIdx).length : Int)) ∧ 0 ≤ i - 1)
  · rw [if_pos hcond] at h
    cases hg : (c.options.filter isValidOptionIdx)[(i - 1).toNat]? with
    | none => rw [hg] at h; simp at h
    | some o2 =>
      rw [hg] at h
      simp only [Option.some.injEq] at h
      obtain ⟨hlt, rfl⟩ := List.getElem?_eq_some.mp hg
      rw [← h]
      exact List.mem_of_mem_filter (List.getElem_mem hlt)
  · rw [if_neg hcond] at h
    simp at h

/-- C4 (witness): with two visible containers of explicit z-indices 5 and
10, the z-index-10 container is picked, and the option selected at index
1 (`Option B`) belongs to that container. -/
theorem pickTop_strict_max_selected_witness :
    pickTopContainer [containerZ5, containerZ10] = some containerZ10 ∧
    optB ∈ containerZ10.options := by
  have h := pickTop_strict_max_selected [containerZ5, containerZ10] containerZ10
    (by decide) (by decide) (by decide) (by decide)
  exact ⟨h.1, h.2 1 optB (by decide)⟩

/-- C3: within `clickWithRetry`, the strategies run in the fixed source
order (standard-click = standard-invoke, force-click = force-invoke,
hover-then-click = hover-then-invoke, js-click = script-invoke,
dispatch-mouse-events = synthetic-event-sequence); the first success at
round `r`, strategy `s`, terminates the whole resolution immediately with
that strategy's name, and the run's trace contains no attempt
lexicographically after `(r, s)` — no later strategy in the round and no
further round is ever attempted. -/
theorem clickWithRetry_first_success_short_circuits
    (env : Env) (sel : String) (mO wO : Option Nat) (r s : Nat) (m : String)
    (hr : r < jsOrNat mO 5) (hs : s < 5) (hok : env r s = .ok m)
    (hbefore : ∀ r' < r, ∀ s' < 5, (env r' s').isOk = false)
    (hsame : ∀ s' < s, (env r s').isOk = false) :
    clickWithRetry env sel mO wO =
      (⟨true, m ++ " (attempt " ++ toString (r + 1) ++ ", strategy: " ++
          strategyNames.getD s "" ++ ")", strategyNames.getD s ""⟩,
       firstSuccTraceAux (jsOrNat wO 500) r s 0) ∧
    ∀ r' s', Event.attempt r' s' ∈ firstSuccTraceAux (jsOrNat wO 500) r s 0 →
      r' < r ∨ (r' = r ∧ s' ≤ s) := by
  constructor
  · exact runRounds_firstSucc env sel (jsOrNat mO 5) (jsOrNat wO 500) r s m hr hs
      hok hbefore hsame r 0 (by omega) (by omega)
  · intro r' s' hmem
    exact firstSuccTraceAux_attempt_bound (jsOrNat wO 500) r s r 0 r' s'
      (by omega) hmem

/-- C3 (witness): in a browser where only strategy 2 (hover-then-click)
of round 1 succeeds, the resolver returns success naming that strategy
with the trace stopping right there. -/
theorem clickWithRetry_first_success_witness :
    clickWithRetry (envSucceedsAt 1 2) "#btn" none none =
      (⟨true, "clicked" ++ " (attempt " ++ toString (1 + 1) ++ ", strategy: " ++
          strategyNames.getD 2 "" ++ ")", strategyNames.getD 2 ""⟩,
       firstSuccTraceAux (jsOrNat none 500) 1 2 0) := by
  exact (clickWithRetry_first_success_short_circuits (envSucceedsAt 1 2) "#btn"
    none none 1 2 "clicked" (by decide) (by decide) (by decide)
    (by decide) (by decide)).1

/-- C6: when every strategy fails in every round, `clickWithRetry`
returns `{success: false, strategy: "none"}` with the aggregate message
only after exhausting all `maxRetries` rounds (default 5 under the
`options.maxRetries || 5` idiom) — the trace contains the attempt of
every strategy of every round — waiting `waitBetween` milliseconds
(default 500) exactly once between consecutive rounds. -/
theorem clickWithRetry_exhausts_all_rounds
    (env : Env) (sel : String) (mO wO : Option Nat)
    (h : ∀ r < jsOrNat mO 5, ∀ s < 5, (env r s).isOk = false) :
    clickWithRetry env sel mO wO =
      (⟨false, "Failed to click " ++ sel ++ " after " ++ toString (jsOrNat mO 5) ++
          " attempts with all strategies", "none"⟩,
       allFailTrace (jsOrNat wO 500) (jsOrNat mO 5) 0) ∧
    (∀ r < jsOrNat mO 5, ∀ s < 5,
      Event.attempt r s ∈ allFailTrace (jsOrNat wO 500) (jsOrNat mO 5) 0) ∧
    (allFailTrace (jsOrNat wO 500) (jsOrNat mO 5) 0).countP Event.isWait =
      jsOrNat mO 5 - 1 ∧
    ∀ ms, Event.wait ms ∈ allFailTrace (jsOrNat wO 500) (jsOrNat mO 5) 0 →
      ms = jsOrNat wO 500 := by
  refine ⟨?_, ?_, ?_, ?_⟩
  · exact runRounds_allFail env sel (jsOrNat mO 5) (jsOrNat wO 500) h
      (jsOrNat mO 5) 0 (by omega)
  · intro r hr s hs
    exact allFailTrace_mem_attempt (jsOrNat wO 500) (jsOrNat mO 5)
      (jsOrNat mO 5) 0 r s (by omega) (by omega) hr hs
  · simpa using allFailTrace_countP_wait (jsOrNat wO 500) (jsOrNat mO 5)
      (jsOrNat mO 5) 0 (by omega)
  · intro ms hmem
    exact allFailTrace_wait_val (jsOrNat wO 500) (jsOrNat mO 5)
      (jsOrNat mO 5) 0 ms (by omega) hmem

/-- C6 (witness): with a selector matching nothing (all strategies fail),
the defaults give the aggregate failure naming strategy `none` after all
5 rounds, and even the very last strategy of the very last round was
attempted before returning. -/
theorem clickWithRetry_exhausts_witness :
    clickWithRetry envAllFail "#missing" none none =
      (⟨false, "Failed to click " ++ "#missing" ++ " after " ++
          toString (jsOrNat none 5) ++ " attempts with all strategies", "none"⟩,
       allFailTrace (jsOrNat none 500) (jsOrNat none 5) 0) ∧
    Event.attempt 4 4 ∈ allFailTrace (jsOrNat none 500) (jsOrNat none 5) 0 := by
  have h := clickWithRetry_exhausts_all_rounds envAllFail "#missing" none none
    (by decide)
  exact ⟨h.1, h.2.1 4 (by decide) 4 (by decide)⟩

/-- C8 (amended): the thin provider wrapper (`clickElement`) throws
immediately on an uninitialized provider and propagates transport
failures; but the composite entry points do not uniformly re-throw:
`inspectElementDetailed` throws only the uninitialized-provider error and
converts a transport failure into a `success: false` result, while
`clickRelativeToElement` converts even the uninitialized-provider error
into a `success: false` result without clicking; and inside the resolver
a strategy throwing is indistinguishable from that strategy failing —
exceptions never escape the retry loop. -/
theorem entry_point_error_handling :
    (∀ call : Except JsError ParsedResult,
      clickElementH false call = .error .notInitialized) ∧
    (∀ m : String,
      clickElementH true (.error (.transport m)) = .error (.transport m)) ∧
    (∀ sel : String, ∀ call : Except JsError InspectParsed,
      inspectElementDetailedH sel false call = .error .notInitialized) ∧
    (∀ sel m : String,
      inspectElementDetailedH sel true (.error (.transport m)) =
        .ok ⟨false, none, "Failed to inspect element: " ++ m⟩) ∧
    (∀ sel : String, ∀ inspectCall : Except JsError InspectParsed,
      ∀ clickCall : Int → Int → Except JsError ParsedResult,
      ∀ ox oy : ℚ, ∀ uc : Bool,
      clickRelativeToElementH sel false inspectCall clickCall ox oy uc =
        (.ok ⟨false,
          "Failed to calculate coordinates: Playwright MCP client not initialized",
          0, 0⟩, none)) ∧
    (∀ env : Env, ∀ sel : String, ∀ mO wO : Option Nat,
      clickWithRetry (censorThrown env) sel mO wO =
        clickWithRetry env sel mO wO) := by
  refine ⟨fun _ => rfl, fun _ => rfl, fun _ _ => rfl, fun _ _ => rfl,
    fun _ _ _ _ _ _ => rfl, ?_⟩
  intro env sel mO wO
  exact runRounds_censor env sel (jsOrNat mO 5) (jsOrNat wO 500)
    (jsOrNat mO 5) 0 (by omega)

/-- C9 (counterexample): the click point is not literally the box origin
plus offsets: with a reference box at fractional origin `x = 0.5`
(offsets `0`, `fromCenter` off) the dispatched click is at the rounded
coordinate `(1, 0)`, and `1 ≠ 0.5 + 0`. -/
theorem relativeClick_rounds_fractional_origin :
    (clickRelativeToElementH "#ref" true inspectOkHalfPx clickCallOk 0 0 false).2 =
      some (1, 0) ∧
    (1 : ℚ) ≠ 1/2 + 0 := by
  constructor
  · simp [clickRelativeToElementH, calculateRelativeCoordinatesH, getElementPositionH,
          inspectElementDetailedH, inspectOkHalfPx, clickAtCoordinatesH, clickCallOk,
          jsOrString, jsRound]
    norm_num
  · norm_num

/-- C9 (amended): when the reference element is located and measured
(inspection succeeds with a bounding box), the dispatched click point is
the box origin — shifted to the center when `useCenter` — plus the
offsets, rounded to whole pixels by JS `Math.round`; and the call fails
closed: whenever the reference cannot be located or measured (provider
uninitialized, inspection throwing, inspection unsuccessful, or a null
details object), no click is dispatched and a `success: false` result
with a descriptive message is returned. -/
theorem clickRelative_rounded_or_fails_closed
    (sel : String) (inspectCall : Except JsError InspectParsed)
    (clickCall : Int → Int → Except JsError ParsedResult)
    (ox oy : ℚ) (uc : Bool) :
    (∀ b pm, inspectCall = .ok ⟨true, some b, pm⟩ →
      (clickRelativeToElementH sel true inspectCall clickCall ox oy uc).2 =
        some (jsRound (b.x + (if uc then b.width / 2 else 0) + ox),
              jsRound (b.y + (if uc then b.height / 2 else 0) + oy))) ∧
    ((clickRelativeToElementH sel false inspectCall clickCall ox oy uc).2 = none ∧
      ∃ rr, (clickRelativeToElementH sel false inspectCall clickCall ox oy uc).1 =
        .ok rr ∧ rr.success = false) ∧
    (∀ e, inspectCall = .error e →
      (clickRelativeToElementH sel true inspectCall clickCall ox oy uc).2 = none ∧
      ∃ rr, (clickRelativeToElementH sel true inspectCall clickCall ox oy uc).1 =
        .ok rr ∧ rr.success = false) ∧
    (∀ d pm, inspectCall = .ok ⟨false, d, pm⟩ →
      (clickRelativeToElementH sel true inspectCall clickCall ox oy uc).2 = none ∧
      ∃ rr, (clickRelativeToElementH sel true inspectCall clickCall ox oy uc).1 =
        .ok rr ∧ rr.success = false) ∧
    (∀ pm, inspectCall = .ok ⟨true, none, pm⟩ →
      (clickRelativeToElementH sel true inspectCall clickCall ox oy uc).2 = none ∧
      ∃ rr, (clickRelativeToElementH sel true inspectCall clickCall ox oy uc).1 =
        .ok rr ∧ rr.success = false) := by
  refine ⟨?_, ?_, ?_, ?_, ?_⟩
  · intro b pm hcall
    subst hcall
    simp only [clickRelativeToElementH, calculateRelativeCoordinatesH,
      getElementPositionH, inspectElementDetailedH, clickAtCoordinatesH]
    simp only [Bool.not_true, Bool.false_eq_true, if_false, Option.isNone_some,
      Bool.or_false, Bool.not_false, if_true]
    cases clickCall (jsRound (b.x + (if uc then b.width / 2 else 0) + ox))
        (jsRound (b.y + (if uc then b.height / 2 else 0) + oy)) <;> rfl
  · constructor
    · simp [clickRelativeToElementH, calculateRelativeCoordinatesH,
        getElementPositionH, JsError.message]
    · exact ⟨⟨false,
        "Failed to calculate coordinates: Playwright MCP client not initialized",
        0, 0⟩, by
          simp [clickRelativeToElementH, calculateRelativeCoordinatesH,
            getElementPositionH, JsError.message], rfl⟩
  · intro e hcall
    subst hcall
    constructor
    · simp [clickRelativeToElementH, calculateRelativeCoordinatesH,
        getElementPositionH, inspectElementDetailedH]
    · refine ⟨⟨false, "Failed to get base element position: " ++
        ("Failed to get element position: " ++
          ("Failed to inspect element: " ++ e.message)), 0, 0⟩, ?_, rfl⟩
      simp [clickRelativeToElementH, calculateRelativeCoordinatesH,
        getElementPositionH, inspectElementDetailedH]
  · intro d pm hcall
    subst hcall
    constructor
    · simp [clickRelativeToElementH, calculateRelativeCoordinatesH,
        getElementPositionH, inspectElementDetailedH]
    · refine ⟨⟨false, "Failed to get base element position: " ++
        ("Failed to get element position: " ++ jsOrString pm ("Inspected " ++ sel)),
        0, 0⟩, ?_, rfl⟩
      simp [clickRelativeToElementH, calculateRelativeCoordinatesH,
        getElementPositionH, inspectElementDetailedH]
  · intro pm hcall
    subst hcall
    constructor
    · simp [clickRelativeToElementH, calculateRelativeCoordinatesH,
        getElementPositionH, inspectElementDetailedH]
    · refine ⟨⟨false, "Failed to get base element position: " ++
        ("Failed to get element position: " ++ jsOrString pm ("Inspected " ++ sel)),
        0, 0⟩, ?_, rfl⟩
      simp [clickRelativeToElementH, calculateRelativeCoordinatesH,
        getElementPositionH, inspectElementDetailedH]

/-- C9 (witness): with a reference box at origin `(10, 20)`, size
`30 × 40`, offsets `(3, 4)` and `useCenter` on, the click is dispatched
exactly at the rounded center-plus-offset point. -/
theorem clickRelative_rounded_or_fails_closed_witness :
    (clickRelativeToElementH "#ref" true inspectOkBox clickCallOk 3 4 true).2 =
      some (jsRound ((10 : ℚ) + (if true then (30 : ℚ) / 2 else 0) + 3),
            jsRound ((20 : ℚ) + (if true then (40 : ℚ) / 2 else 0) + 4)) := by
  exact (clickRelative_rounded_or_fails_closed "#ref" inspectOkBox clickCallOk
    3 4 true).1 ⟨10, 20, 30, 40⟩ (some "ok") rfl

end AutomateShauqq
